import Mathlib

/-!
Shallow embedding of `src/anphon/dielec.cpp` (class `Dielec` of the alamode
anphon code): the frequency grid built in `Dielec::init`, the dielectric
function `Dielec::compute_dielectric_function`, and the mode effective
charges `Dielec::compute_mode_effective_charge` / `Dielec::get_zstar_mode`.

Modelling conventions:
* C++ `double` is modelled by `ℝ`, `std::complex<double>` by `ℂ`.
* Arrays are total functions from `ℕ`; only indices below the stated bounds
  (`ns`, `nomega`, 3) are ever read by the embedded code.
* The physical constants `amu_ry`, `time_ry`, `Hz_to_kayser` and the
  system data `mass`, `map_p2s`, `volume_p`, the Born charges `zstar`
  and the eigensolution `eval`, `evec` live in other translation units
  (constants.h, system, dynamical); they enter here as explicit parameters,
  exactly as the C++ code reads them.
* `exitall(funcname, message)` terminates the program; fallible entry points
  are therefore modelled with `Except (String × String)` whose error value
  carries the two strings passed to `exitall`.
* The in-place mass normalisation of `evec_in` performed by
  `compute_dielectric_function` is modelled by returning the final contents
  of `evec_in` as the second component of the result pair.
-/

namespace Dielec

open Finset

noncomputable section

/-- The C++ conversion `static_cast<int>(x)` from `double`: truncation toward
zero (`Dielec::init`, line 70). -/
def trunc_to_int (x : ℝ) : ℤ :=
  if 0 ≤ x then ⌊x⌋ else ⌈x⌉

/-- `nomega = static_cast<int>((emax - emin) / delta_e)` (`Dielec::init`). -/
def init_nomega (emin emax delta_e : ℝ) : ℤ :=
  trunc_to_int ((emax - emin) / delta_e)

/-- `omega_grid[i] = emin + delta_e * static_cast<double>(i)` (`Dielec::init`,
line 90). -/
def omega_grid_point (emin delta_e : ℝ) (i : ℕ) : ℝ :=
  emin + delta_e * (i : ℝ)

/-- `Dielec::init`: on the coordinating process (`my_rank = 0`) the grid
scalars are read from the dos provider and, when the dielectric calculation
is enabled (`calc_dielectric_constant` nonzero as a C `int` truth value),
an empty `dynamical->file_born` aborts via `exitall` before the grid is
allocated.  The successful enabled branch returns the grid length and the
grid itself; the disabled branch returns `none` (no grid is built). -/
def init (calc_dielectric_constant : ℤ) (my_rank : ℕ) (file_born : String)
    (emin emax delta_e : ℝ) :
    Except (String × String) (Option (ℤ × (ℕ → ℝ))) :=
  if calc_dielectric_constant ≠ 0 then
    if my_rank = 0 ∧ file_born = "" then
      Except.error ("Dielec::init()", "BORNINFO must be set when DIELEC = 1.")
    else
      Except.ok (some (init_nomega emin emax delta_e,
                       omega_grid_point emin delta_e))
  else
    Except.ok none

/-- The in-place division `evec_in[i][j] /= sqrt(system->mass[system->map_p2s[j/3][0]])`
of `compute_dielectric_function` (lines 157–161).  `map_p2s` is the first
column `system->map_p2s[·][0]` of the primitive-to-super map. -/
def massNormalizeDielec (mass : ℕ → ℝ) (map_p2s : ℕ → ℕ)
    (evec : ℕ → ℕ → ℂ) : ℕ → ℕ → ℂ :=
  fun is j => evec is j / (Real.sqrt (mass (map_p2s (j / 3))) : ℂ)

/-- `zstar_u[i][is] = Σ_j zstar[j/3][i][j%3] * evec_in[is][j].real()`
(lines 181–189), evaluated on whatever array contents `evec` it is given. -/
def zstar_u (ns : ℕ) (zstar : ℕ → ℕ → ℕ → ℝ) (evec : ℕ → ℕ → ℂ)
    (i is : ℕ) : ℝ :=
  ∑ j in Finset.range ns, zstar (j / 3) i (j % 3) * (evec is j).re

/-- `s_born[i][j][is] = zstar_u[i][is] * zstar_u[j][is]` (lines 214–220). -/
def s_born (ns : ℕ) (zstar : ℕ → ℕ → ℕ → ℝ) (evec : ℕ → ℕ → ℂ)
    (i j is : ℕ) : ℝ :=
  zstar_u ns zstar evec i is * zstar_u ns zstar evec j is

/-- `freq_conv_factor = time_ry * time_ry / (Hz_to_kayser * Hz_to_kayser)`
(line 222). -/
def freq_conv_factor (time_ry Hz_to_kayser : ℝ) : ℝ :=
  time_ry * time_ry / (Hz_to_kayser * Hz_to_kayser)

/-- `Dielec::compute_dielectric_function` (lines 136–242).  First component:
the filled `dielec_out`, indexed `[iomega][i][j]`.  Second component: the
final contents of the caller's `evec_in` array, which the function divides
in place by `sqrt(mass)` and never restores. -/
def compute_dielectric_function (ns : ℕ)
    (time_ry Hz_to_kayser volume_p : ℝ)
    (mass : ℕ → ℝ) (map_p2s : ℕ → ℕ) (zstar : ℕ → ℕ → ℕ → ℝ)
    (omega_grid_in : ℕ → ℝ) (eval_in : ℕ → ℝ) (evec_in : ℕ → ℕ → ℂ) :
    (ℕ → ℕ → ℕ → ℝ) × (ℕ → ℕ → ℂ) :=
  let evec1 := massNormalizeDielec mass map_p2s evec_in
  let factor := 8 * Real.pi / volume_p
  (fun iomega i j =>
    (∑ is in Finset.Ico 3 ns,
        s_born ns zstar evec1 i j is /
          (eval_in is -
            omega_grid_in iomega * omega_grid_in iomega *
              freq_conv_factor time_ry Hz_to_kayser)) * factor,
   evec1)

/-- The division `evec[i][j] /= sqrt(system->mass[system->map_p2s[j/3][0]] / amu_ry)`
of `compute_mode_effective_charge` (lines 294–299): a different
mass-normalisation constant than `massNormalizeDielec`. -/
def massNormalizeMode (amu_ry : ℝ) (mass : ℕ → ℝ) (map_p2s : ℕ → ℕ)
    (evec : ℕ → ℕ → ℂ) : ℕ → ℕ → ℂ :=
  fun is j => evec is j / (Real.sqrt (mass (map_p2s (j / 3)) / amu_ry) : ℂ)

/-- `normalization_factor = Σ_j std::norm(evec[is][j])` (lines 306–311);
`std::norm` is the squared magnitude, i.e. `Complex.normSq`. -/
def normalization_factor (ns : ℕ) (evec : ℕ → ℕ → ℂ) (is : ℕ) : ℝ :=
  ∑ j in Finset.range ns, Complex.normSq (evec is j)

/-- The arithmetic core of `Dielec::compute_mode_effective_charge`
(lines 294–314), taking the q = 0 eigenvectors delivered by the dynamical
solver as the parameter `evec`: mass-normalise by `sqrt(mass/amu_ry)`,
project the Born charges onto every mode (acoustic modes included), and
divide by `sqrt(normalization_factor)` when `do_normalize` is set.
Result indexed `zstar_mode[is][i]`. -/
def compute_mode_effective_charge (ns : ℕ) (amu_ry : ℝ)
    (mass : ℕ → ℝ) (map_p2s : ℕ → ℕ) (zstar_atom : ℕ → ℕ → ℕ → ℝ)
    (evec : ℕ → ℕ → ℂ) (do_normalize : Bool) (is i : ℕ) : ℝ :=
  let evec1 := massNormalizeMode amu_ry mass map_p2s evec
  let z := ∑ j in Finset.range ns, zstar_atom (j / 3) i (j % 3) * (evec1 is j).re
  if do_normalize then z / Real.sqrt (normalization_factor ns evec1 is) else z

/-- The guard at the top of `Dielec::compute_mode_effective_charge`
(lines 257–260): an empty `dynamical->file_born` aborts via `exitall`
before any computation; otherwise the full `ns × 3` table is produced. -/
def compute_mode_effective_charge_checked (file_born : String) (ns : ℕ)
    (amu_ry : ℝ) (mass : ℕ → ℝ) (map_p2s : ℕ → ℕ)
    (zstar_atom : ℕ → ℕ → ℕ → ℝ) (evec : ℕ → ℕ → ℂ) (do_normalize : Bool) :
    Except (String × String) (ℕ → ℕ → ℝ) :=
  if file_born = "" then
    Except.error ("Dielec::compute_mode_effective_charge()",
                  "BORNINFO must be set when DIELEC = 1.")
  else
    Except.ok (compute_mode_effective_charge ns amu_ry mass map_p2s
                 zstar_atom evec do_normalize)

/-- `Dielec::get_zstar_mode` (lines 244–250): builds an `ns × 3` table and
fills it by calling `compute_mode_effective_charge(zstar_mode, false)`. -/
def get_zstar_mode (ns : ℕ) (amu_ry : ℝ) (mass : ℕ → ℝ) (map_p2s : ℕ → ℕ)
    (zstar_atom : ℕ → ℕ → ℕ → ℝ) (evec : ℕ → ℕ → ℂ) : ℕ → ℕ → ℝ :=
  fun is i => compute_mode_effective_charge ns amu_ry mass map_p2s
                zstar_atom evec false is i

end

/-! Theorems about the embedded code. -/

/-- Claim C1: for every q = 0 eigensolution, frequency grid and Born-charge
table, `compute_dielectric_function` mass-normalises each eigenvector
component by `sqrt(mass(j/3))`, projects the Born charges onto the real
parts of the normalised eigenvectors, and fills
`dielec[iomega][i][j] = (8π/V_p) · Σ_{is ≥ 3} zstar_u[i][is]·zstar_u[j][is] / (eval[is] − ω_conv²)`
with `ω_conv² = ω² · time_ry²/Hz_to_kayser²`; the sum runs over `Ico 3 ns`,
so the three acoustic modes `is = 0, 1, 2` contribute nothing. -/
theorem C1_dielectric_function_formula (ns : ℕ)
    (time_ry Hz_to_kayser volume_p : ℝ)
    (mass : ℕ → ℝ) (map_p2s : ℕ → ℕ) (zstar : ℕ → ℕ → ℕ → ℝ)
    (og ev : ℕ → ℝ) (evec : ℕ → ℕ → ℂ) (iomega i j : ℕ) :
    (compute_dielectric_function ns time_ry Hz_to_kayser volume_p mass map_p2s
        zstar og ev evec).1 iomega i j
      = (8 * Real.pi / volume_p) *
          ∑ is in Finset.Ico 3 ns,
            ((∑ k in Finset.range ns,
                zstar (k / 3) i (k % 3) *
                  ((evec is k).re / Real.sqrt (mass (map_p2s (k / 3))))) *
             (∑ k in Finset.range ns,
                zstar (k / 3) j (k % 3) *
                  ((evec is k).re / Real.sqrt (mass (map_p2s (k / 3)))))) /
            (ev is - og iomega * og iomega *
              (time_ry * time_ry / (Hz_to_kayser * Hz_to_kayser))) := by
  simp only [compute_dielectric_function, s_born, zstar_u, massNormalizeDielec,
    freq_conv_factor, Complex.div_ofReal_re]
  rw [mul_comm]

/-- Claim C2: `compute_mode_effective_charge` divides every eigenvector
component by `sqrt(mass/amu_ry)` (a different mass-normalisation constant
than the plain `sqrt(mass)` of the dielectric computation), sets
`zmode[is][i] = Σ_j Z[j/3][i][j mod 3] · Re(evec[is][j])` while the
accumulated norm is `Σ_j |evec[is][j]|²`, and yields a value for every mode
`is` and direction `i` — no mode excluded. -/
theorem C2_mode_effective_charge_formula (ns : ℕ) (amu_ry : ℝ)
    (mass : ℕ → ℝ) (map_p2s : ℕ → ℕ) (zstar_atom : ℕ → ℕ → ℕ → ℝ)
    (evec : ℕ → ℕ → ℂ) (do_normalize : Bool) (is i : ℕ) :
    compute_mode_effective_charge ns amu_ry mass map_p2s zstar_atom evec
        do_normalize is i
      = (if do_normalize then
           (∑ k in Finset.range ns,
              zstar_atom (k / 3) i (k % 3) *
                ((evec is k).re / Real.sqrt (mass (map_p2s (k / 3)) / amu_ry)))
             / Real.sqrt (∑ k in Finset.range ns,
                 Complex.normSq (evec is k) /
                   (Real.sqrt (mass (map_p2s (k / 3)) / amu_ry) *
                    Real.sqrt (mass (map_p2s (k / 3)) / amu_ry)))
         else
           ∑ k in Finset.range ns,
              zstar_atom (k / 3) i (k % 3) *
                ((evec is k).re / Real.sqrt (mass (map_p2s (k / 3)) / amu_ry))) := by
  simp only [compute_mode_effective_charge, massNormalizeMode,
    normalization_factor, Complex.div_ofReal_re, Complex.normSq_div,
    Complex.normSq_ofReal]

/-- Claim C3: after `init`, for every valid grid configuration
(`emin ≤ emax`, `delta_e > 0`) on a path that does not abort, the returned
grid length is `⌊(emax − emin)/delta_e⌋`, the grid points are
`omega[i] = emin + i·delta_e`, and the grid is strictly increasing. -/
theorem C3_init_grid (calc_dielectric_constant : ℤ) (my_rank : ℕ)
    (file_born : String) (emin emax delta_e : ℝ)
    (hc : calc_dielectric_constant ≠ 0)
    (hb : ¬(my_rank = 0 ∧ file_born = ""))
    (h1 : emin ≤ emax) (h2 : 0 < delta_e) :
    init calc_dielectric_constant my_rank file_born emin emax delta_e
      = Except.ok (some (⌊(emax - emin) / delta_e⌋,
                         omega_grid_point emin delta_e))
    ∧ (∀ i : ℕ, omega_grid_point emin delta_e i = emin + (i : ℝ) * delta_e)
    ∧ ∀ i j : ℕ, i < j →
        omega_grid_point emin delta_e i < omega_grid_point emin delta_e j := by
  have hq : 0 ≤ (emax - emin) / delta_e :=
    div_nonneg (by linarith) h2.le
  refine ⟨?_, fun i => by rw [omega_grid_point, mul_comm], fun i j hij => ?_⟩
  · simp only [init, if_pos hc, if_neg hb, init_nomega, trunc_to_int,
      if_pos hq]
  · have hcast : (i : ℝ) < (j : ℝ) := Nat.cast_lt.mpr hij
    have := mul_lt_mul_of_pos_left hcast h2
    simp only [omega_grid_point]
    linarith

/-- Witness for C3 at the concrete configuration
`calc = 1, rank = 0, file_born = "BORN", emin = 0, emax = 1, delta_e = 1`. -/
theorem C3_init_grid_witness :
    (1 : ℤ) ≠ 0 ∧ ¬((0 : ℕ) = 0 ∧ "BORN" = "") ∧ (0 : ℝ) ≤ 1 ∧ (0 : ℝ) < 1 ∧
    (init 1 0 "BORN" 0 1 1
        = Except.ok (some (⌊((1 : ℝ) - 0) / 1⌋, omega_grid_point 0 1))
      ∧ (∀ i : ℕ, omega_grid_point 0 1 i = 0 + (i : ℝ) * 1)
      ∧ ∀ i j : ℕ, i < j →
          omega_grid_point (0 : ℝ) 1 i < omega_grid_point 0 1 j) :=
  ⟨by decide, by simp, by norm_num, by norm_num,
   C3_init_grid 1 0 "BORN" 0 1 1 (by decide) (by simp) (by norm_num)
     (by norm_num)⟩

/-- Claim C4 counterexample: at a concrete input (one atom, `ns = 3`,
unit masses, `amu_ry = 1`, identity eigenvectors, all Born charges zero)
the accumulated eigenvector norm is nonzero, yet with normalisation
requested `Σ_i zmode[0][i]²` is `0`, not `1`: the code divides by the
eigenvector norm, not by the norm of the charge vector itself. -/
theorem C4_counterexample :
    normalization_factor 3
        (massNormalizeMode 1 (fun _ => 1) (fun a => a)
          (fun is j => if is = j then 1 else 0)) 0 ≠ 0
    ∧ ¬ (∑ i in Finset.range 3,
          (compute_mode_effective_charge 3 1 (fun _ => 1) (fun a => a)
            (fun _ _ _ => 0) (fun is j => if is = j then 1 else 0)
            true 0 i) ^ 2) = 1 := by
  constructor
  · simp [normalization_factor, massNormalizeMode, Finset.sum_range_succ,
      Real.sqrt_one]
  · simp [compute_mode_effective_charge, Finset.sum_range_succ]

/-- Claim C4 (amended): when normalisation is requested, each
`zmode[is][i]` is the unnormalised value divided by the square root of the
accumulated eigenvector norm; hence for every mode with nonzero norm the
squared length of the normalised charge vector equals the squared length of
the unnormalised one divided by the eigenvector norm (it equals 1 only when
those two agree, not for every mode). -/
theorem C4_amended_normalization (ns : ℕ) (amu_ry : ℝ)
    (mass : ℕ → ℝ) (map_p2s : ℕ → ℕ) (zstar_atom : ℕ → ℕ → ℕ → ℝ)
    (evec : ℕ → ℕ → ℂ) (is : ℕ)
    (_hn : normalization_factor ns
        (massNormalizeMode amu_ry mass map_p2s evec) is ≠ 0) :
    (∀ i, compute_mode_effective_charge ns amu_ry mass map_p2s zstar_atom
            evec true is i
        = compute_mode_effective_charge ns amu_ry mass map_p2s zstar_atom
            evec false is i
          / Real.sqrt (normalization_factor ns
              (massNormalizeMode amu_ry mass map_p2s evec) is))
    ∧ (∑ i in Finset.range 3,
        (compute_mode_effective_charge ns amu_ry mass map_p2s zstar_atom
           evec true is i) ^ 2)
      = (∑ i in Finset.range 3,
          (compute_mode_effective_charge ns amu_ry mass map_p2s zstar_atom
             evec false is i) ^ 2)
        / normalization_factor ns
            (massNormalizeMode amu_ry mass map_p2s evec) is := by
  have h0 : 0 ≤ normalization_factor ns
      (massNormalizeMode amu_ry mass map_p2s evec) is :=
    Finset.sum_nonneg fun j _ => Complex.normSq_nonneg _
  have hpt : ∀ i, compute_mode_effective_charge ns amu_ry mass map_p2s
      zstar_atom evec true is i
      = compute_mode_effective_charge ns amu_ry mass map_p2s zstar_atom
          evec false is i
        / Real.sqrt (normalization_factor ns
            (massNormalizeMode amu_ry mass map_p2s evec) is) := by
    intro i
    simp [compute_mode_effective_charge]
  refine ⟨hpt, ?_⟩
  rw [Finset.sum_div]
  refine Finset.sum_congr rfl fun i _ => ?_
  rw [hpt i, div_pow, Real.sq_sqrt h0]

/-- Witness for the amended C4 at the concrete input of the
counterexample, whose eigenvector norm is nonzero. -/
theorem C4_amended_normalization_witness :
    normalization_factor 3
        (massNormalizeMode 1 (fun _ => 1) (fun a => a)
          (fun is j => if is = j then 1 else 0)) 0 ≠ 0
    ∧ ((∀ i, compute_mode_effective_charge 3 1 (fun _ => 1) (fun a => a)
              (fun _ _ _ => 0) (fun is j => if is = j then 1 else 0)
              true 0 i
          = compute_mode_effective_charge 3 1 (fun _ => 1) (fun a => a)
              (fun _ _ _ => 0) (fun is j => if is = j then 1 else 0)
              false 0 i
            / Real.sqrt (normalization_factor 3
                (massNormalizeMode 1 (fun _ => 1) (fun a => a)
                  (fun is j => if is = j then 1 else 0)) 0))
      ∧ (∑ i in Finset.range 3,
          (compute_mode_effective_charge 3 1 (fun _ => 1) (fun a => a)
             (fun _ _ _ => 0) (fun is j => if is = j then 1 else 0)
             true 0 i) ^ 2)
        = (∑ i in Finset.range 3,
            (compute_mode_effective_charge 3 1 (fun _ => 1) (fun a => a)
               (fun _ _ _ => 0) (fun is j => if is = j then 1 else 0)
               false 0 i) ^ 2)
          / normalization_factor 3
              (massNormalizeMode 1 (fun _ => 1) (fun a => a)
                (fun is j => if is = j then 1 else 0)) 0) :=
  ⟨by simp [normalization_factor, massNormalizeMode, Finset.sum_range_succ,
      Real.sqrt_one],
   C4_amended_normalization 3 1 (fun _ => 1) (fun a => a) (fun _ _ _ => 0)
     (fun is j => if is = j then 1 else 0) 0
     (by simp [normalization_factor, massNormalizeMode,
       Finset.sum_range_succ, Real.sqrt_one])⟩

/-- Claim C5: the 3×3 matrix produced by `compute_dielectric_function` at
each grid index is symmetric in the two Cartesian indices, because each
per-mode contribution is the outer product of one real vector. -/
theorem C5_dielec_symmetric (ns : ℕ) (time_ry Hz_to_kayser volume_p : ℝ)
    (mass : ℕ → ℝ) (map_p2s : ℕ → ℕ) (zstar : ℕ → ℕ → ℕ → ℝ)
    (og ev : ℕ → ℝ) (evec : ℕ → ℕ → ℂ) (iomega i j : ℕ) :
    (compute_dielectric_function ns time_ry Hz_to_kayser volume_p mass map_p2s
        zstar og ev evec).1 iomega i j
      = (compute_dielectric_function ns time_ry Hz_to_kayser volume_p mass
          map_p2s zstar og ev evec).1 iomega j i := by
  simp only [compute_dielectric_function, s_born]
  congr 1
  refine Finset.sum_congr rfl fun is _ => ?_
  rw [mul_comm (zstar_u ns zstar (massNormalizeDielec mass map_p2s evec) i is)]

/-- Claim C6: with an unconfigured Born-charge source (`file_born = ""`),
`init` on the coordinating process with the dielectric calculation enabled,
and `compute_mode_effective_charge` before any other work, abort via
`exitall` with an error naming the failing operation and the missing
BORNINFO requirement; no grid or table is produced and no recovery is
attempted. -/
theorem C6_missing_borninfo_error (calc_dielectric_constant : ℤ)
    (emin emax delta_e : ℝ) (ns : ℕ) (amu_ry : ℝ) (mass : ℕ → ℝ)
    (map_p2s : ℕ → ℕ) (zstar_atom : ℕ → ℕ → ℕ → ℝ) (evec : ℕ → ℕ → ℂ)
    (do_normalize : Bool) (hc : calc_dielectric_constant ≠ 0) :
    init calc_dielectric_constant 0 "" emin emax delta_e
      = Except.error ("Dielec::init()",
                      "BORNINFO must be set when DIELEC = 1.")
    ∧ compute_mode_effective_charge_checked "" ns amu_ry mass map_p2s
        zstar_atom evec do_normalize
      = Except.error ("Dielec::compute_mode_effective_charge()",
                      "BORNINFO must be set when DIELEC = 1.") := by
  constructor
  · simp [init, hc]
  · rfl

/-- Witness for C6 with the enabled flag set to the concrete value 1. -/
theorem C6_missing_borninfo_error_witness :
    (1 : ℤ) ≠ 0 ∧
    (init 1 0 "" 0 1 1
      = Except.error ("Dielec::init()",
                      "BORNINFO must be set when DIELEC = 1.")
    ∧ compute_mode_effective_charge_checked "" 3 1 (fun _ => 1) (fun a => a)
        (fun _ _ _ => 0) (fun _ _ => 0) false
      = Except.error ("Dielec::compute_mode_effective_charge()",
                      "BORNINFO must be set when DIELEC = 1.")) :=
  ⟨by decide,
   C6_missing_borninfo_error 1 0 1 1 3 1 (fun _ => 1) (fun a => a)
     (fun _ _ _ => 0) (fun _ _ => 0) false (by decide)⟩

/-- Claim C7: if every Born-charge entry is zero then the dielectric tensor
is zero at every grid point and every mode effective charge is zero. -/
theorem C7_zero_born_charges (ns : ℕ)
    (time_ry Hz_to_kayser volume_p amu_ry : ℝ)
    (mass : ℕ → ℝ) (map_p2s : ℕ → ℕ) (zstar : ℕ → ℕ → ℕ → ℝ)
    (og ev : ℕ → ℝ) (evec : ℕ → ℕ → ℂ) (do_normalize : Bool)
    (hz : ∀ a b c, zstar a b c = 0) (iomega i j is k : ℕ) :
    (compute_dielectric_function ns time_ry Hz_to_kayser volume_p mass map_p2s
        zstar og ev evec).1 iomega i j = 0
    ∧ compute_mode_effective_charge ns amu_ry mass map_p2s zstar evec
        do_normalize is k = 0 := by
  constructor
  · simp [compute_dielectric_function, s_born, zstar_u, hz]
  · simp [compute_mode_effective_charge, hz]

/-- Witness for C7 at a concrete input with identically zero Born charges. -/
theorem C7_zero_born_charges_witness :
    (∀ a b c : ℕ, (fun _ _ _ => (0 : ℝ)) a b c = 0) ∧
    ((compute_dielectric_function 3 1 1 1 (fun _ => 1) (fun a => a)
        (fun _ _ _ => 0) (fun _ => 0) (fun _ => 1) (fun _ _ => 1)).1 0 0 0 = 0
    ∧ compute_mode_effective_charge 3 1 (fun _ => 1) (fun a => a)
        (fun _ _ _ => 0) (fun _ _ => 1) true 0 0 = 0) :=
  ⟨fun _ _ _ => rfl,
   C7_zero_born_charges 3 1 1 1 1 (fun _ => 1) (fun a => a) (fun _ _ _ => 0)
     (fun _ => 0) (fun _ => 1) (fun _ _ => 1) true (fun _ _ _ => rfl)
     0 0 0 0 0⟩

/-- Claim C8: both computations are deterministic — they are functions of
the listed inputs only, so two invocations on pointwise-identical
eigenvalues, eigenvectors, Born charges, masses, volume and grid produce
identical tensor series and mode-charge tables. -/
theorem C8_deterministic (ns : ℕ)
    (time_ry Hz_to_kayser volume_p amu_ry : ℝ)
    (mass mass2 : ℕ → ℝ) (map_p2s map_p2s2 : ℕ → ℕ)
    (zstar zstar2 : ℕ → ℕ → ℕ → ℝ) (og og2 ev ev2 : ℕ → ℝ)
    (evec evec2 : ℕ → ℕ → ℂ)
    (hm : ∀ a, mass a = mass2 a) (hp : ∀ a, map_p2s a = map_p2s2 a)
    (hz : ∀ a b c, zstar a b c = zstar2 a b c)
    (hg : ∀ a, og a = og2 a) (he : ∀ a, ev a = ev2 a)
    (hv : ∀ a b, evec a b = evec2 a b) :
    compute_dielectric_function ns time_ry Hz_to_kayser volume_p mass map_p2s
        zstar og ev evec
      = compute_dielectric_function ns time_ry Hz_to_kayser volume_p mass2
          map_p2s2 zstar2 og2 ev2 evec2
    ∧ ∀ do_normalize,
        compute_mode_effective_charge ns amu_ry mass map_p2s zstar evec
            do_normalize
          = compute_mode_effective_charge ns amu_ry mass2 map_p2s2 zstar2
              evec2 do_normalize := by
  have e1 : mass = mass2 := funext hm
  have e2 : map_p2s = map_p2s2 := funext hp
  have e3 : zstar = zstar2 := funext fun a => funext fun b => funext (hz a b)
  have e4 : og = og2 := funext hg
  have e5 : ev = ev2 := funext he
  have e6 : evec = evec2 := funext fun a => funext (hv a)
  subst e1 e2 e3 e4 e5 e6
  exact ⟨rfl, fun _ => rfl⟩

/-- Witness for C8 at concrete pointwise-identical inputs. -/
theorem C8_deterministic_witness :
    (∀ a : ℕ, (fun _ => (1 : ℝ)) a = (fun _ => (1 : ℝ)) a) ∧
    (compute_dielectric_function 3 1 1 1 (fun _ => 1) (fun a => a)
        (fun _ _ _ => 0) (fun _ => 0) (fun _ => 1) (fun _ _ => 1)
      = compute_dielectric_function 3 1 1 1 (fun _ => 1) (fun a => a)
          (fun _ _ _ => 0) (fun _ => 0) (fun _ => 1) (fun _ _ => 1)
    ∧ ∀ do_normalize,
        compute_mode_effective_charge 3 1 (fun _ => 1) (fun a => a)
            (fun _ _ _ => 0) (fun _ _ => 1) do_normalize
          = compute_mode_effective_charge 3 1 (fun _ => 1) (fun a => a)
              (fun _ _ _ => 0) (fun _ _ => 1) do_normalize) :=
  ⟨fun _ => rfl,
   C8_deterministic 3 1 1 1 1 (fun _ => 1) (fun _ => 1) (fun a => a)
     (fun a => a) (fun _ _ _ => 0) (fun _ _ _ => 0) (fun _ => 0) (fun _ => 0)
     (fun _ => 1) (fun _ => 1) (fun _ _ => 1) (fun _ _ => 1)
     (fun _ => rfl) (fun _ => rfl) (fun _ _ _ => rfl) (fun _ => rfl)
     (fun _ => rfl) (fun _ _ => rfl)⟩

/-- Claim C9: `compute_dielectric_function` mutates the caller's `evec_in`
in place: afterwards every component is the original divided by
`sqrt(mass)` and is never restored, and invoking the function again on the
same array divides by `sqrt(mass)` a second time. -/
theorem C9_evec_in_mutated (ns : ℕ) (time_ry Hz_to_kayser volume_p : ℝ)
    (mass : ℕ → ℝ) (map_p2s : ℕ → ℕ) (zstar : ℕ → ℕ → ℕ → ℝ)
    (og ev : ℕ → ℝ) (evec : ℕ → ℕ → ℂ) (is j : ℕ) :
    (compute_dielectric_function ns time_ry Hz_to_kayser volume_p mass map_p2s
        zstar og ev evec).2 is j
      = evec is j / (Real.sqrt (mass (map_p2s (j / 3))) : ℂ)
    ∧ (compute_dielectric_function ns time_ry Hz_to_kayser volume_p mass
        map_p2s zstar og ev
        ((compute_dielectric_function ns time_ry Hz_to_kayser volume_p mass
            map_p2s zstar og ev evec).2)).2 is j
      = evec is j / (Real.sqrt (mass (map_p2s (j / 3))) : ℂ)
          / (Real.sqrt (mass (map_p2s (j / 3))) : ℂ) :=
  ⟨rfl, rfl⟩

/-- Claim C10: the public accessor `get_zstar_mode` always calls
`compute_mode_effective_charge` with `do_normalize = false`, so every entry
of the returned table is the unnormalised mode effective charge — the sum
with no division by the square root of the eigenvector norm. -/
theorem C10_get_zstar_mode_unnormalized (ns : ℕ) (amu_ry : ℝ)
    (mass : ℕ → ℝ) (map_p2s : ℕ → ℕ) (zstar_atom : ℕ → ℕ → ℕ → ℝ)
    (evec : ℕ → ℕ → ℂ) (is i : ℕ) :
    get_zstar_mode ns amu_ry mass map_p2s zstar_atom evec is i
      = ∑ k in Finset.range ns,
          zstar_atom (k / 3) i (k % 3) *
            ((evec is k).re / Real.sqrt (mass (map_p2s (k / 3)) / amu_ry)) := by
  simp only [get_zstar_mode, compute_mode_effective_charge, massNormalizeMode,
    Complex.div_ofReal_re, Bool.false_eq_true, if_false]

end Dielec
